import Mathlib

/-!
Verification development for `app.py` of the "Assistant de Correction
Intelligent" repository.  The Python source is shallowly embedded: the
four `re.search` extractions of `analyser_avec_gemini` are modelled by an
explicit backtracking matcher specialised to the shapes of those regular
expressions, the external calls (Gemini model, file libraries) are
modelled as function parameters or `Except` outcomes, and the Streamlit
button handler is modelled as a pure function producing an effect trace.
-/

/-- Whitespace test used by Python's `\s` (for `re.search`) and by
`str.strip`: ASCII whitespace plus the usual Unicode whitespace
code points. -/
def isSpace (c : Char) : Bool :=
  c == ' ' || c == '\t' || c == '\n' || c == '\r' ||
  c.toNat == 11 || c.toNat == 12 ||
  (28 ≤ c.toNat && c.toNat ≤ 31) || c.toNat == 133 || c.toNat == 160 ||
  c.toNat == 5760 || (8192 ≤ c.toNat && c.toNat ≤ 8202) ||
  c.toNat == 8232 || c.toNat == 8233 || c.toNat == 8239 ||
  c.toNat == 8287 || c.toNat == 12288

/-- Newline character. -/
def lf : Char := Char.ofNat 10

/-- Apostrophe character (appears in the label `Axes d'amélioration`). -/
def apos : Char := Char.ofNat 39

/-- Label anchoring the first regex of `analyser_avec_gemini`. -/
def commLabel : List Char := "Commentaire pédagogique".data

/-- Label anchoring the second regex (contains an apostrophe). -/
def axesLabel : List Char := ("Axes d".data ++ [apos]) ++ "amélioration".data

/-- Label anchoring the third regex. -/
def pfLabel : List Char := "Points forts".data

/-- Label anchoring the score regex. -/
def noteLabel : List Char := "Note indicative".data

/-- Match a literal needle at the head of a string; on success return the
remainder.  This is the semantics of a literal inside a Python regex. -/
def matchLit : List Char → List Char → Option (List Char)
  | [], s => some s
  | _ :: _, [] => none
  | l :: ls, c :: cs => if c == l then matchLit ls cs else none

/-- Semantics of the regex tail `(.*?)\n\s*L2` with `re.DOTALL`: the lazy
capture takes the shortest prefix that is followed by a newline, optional
whitespace, and the literal `L2`.  Returns the captured group. -/
def findTail (L2 : List Char) : List Char → Option (List Char)
  | [] => none
  | c :: cs =>
    if c == lf && (matchLit L2 (cs.dropWhile isSpace)).isSome then some []
    else (findTail L2 cs).map (fun cap => c :: cap)

/-- Semantics of `\s*(.*?)\n\s*L2` with a greedy `\s*`: the longest
whitespace prefix is tried first and shortened on failure of the rest of
the pattern, exactly as Python's backtracking engine does. -/
def greedyWsThen (L2 : List Char) : List Char → Option (List Char)
  | [] => findTail L2 []
  | c :: cs =>
    if isSpace c then
      match greedyWsThen L2 cs with
      | some cap => some cap
      | none => findTail L2 (c :: cs)
    else findTail L2 (c :: cs)

/-- Attempt of the full pattern `L1\s*:\s*(.*?)\n\s*L2` at the current
position.  After `L1`, the greedy `\s*` before `:` is deterministic
because `:` is not whitespace. -/
def bodyTail (L1 L2 : List Char) (s : List Char) : Option (List Char) :=
  match matchLit L1 s with
  | some r1 =>
    match r1.dropWhile isSpace with
    | c :: r2 => if c == ':' then greedyWsThen L2 r2 else none
    | [] => none
  | none => none

/-- Semantics of `re.search` for `L1\s*:\s*(.*?)\n\s*L2` with `re.DOTALL`:
try the pattern at each position, leftmost first. -/
def searchBody (L1 L2 : List Char) : List Char → Option (List Char)
  | [] => none
  | s₀@(_ :: cs) =>
    match bodyTail L1 L2 s₀ with
    | some cap => some cap
    | none => searchBody L1 L2 cs

/-- Attempt of `Note indicative\s*:\s*(\d+)` at the current position.
Both `\s*` are deterministic here (`:` and digits are not whitespace);
`(\d+)` greedily captures the maximal digit run. -/
def noteTail (s : List Char) : Option (List Char) :=
  match matchLit noteLabel s with
  | some r1 =>
    match r1.dropWhile isSpace with
    | c :: r2 =>
      if c == ':' then
        match r2.dropWhile isSpace with
        | d :: ds => if d.isDigit then some (d :: ds.takeWhile Char.isDigit) else none
        | [] => none
      else none
    | [] => none
  | none => none

/-- Semantics of `re.search` for the score pattern. -/
def searchNote : List Char → Option (List Char)
  | [] => none
  | s₀@(_ :: cs) =>
    match noteTail s₀ with
    | some d => some d
    | none => searchNote cs

/-- Python's `str.strip()`: drop whitespace from both ends. -/
def stripChars (s : List Char) : List Char :=
  ((s.dropWhile isSpace).reverse.dropWhile isSpace).reverse

/-- Result of `analyser_avec_gemini`: the four returned strings
`(commentaire, axes_amelioration, points_forts, note_finale)`. -/
structure GradingResult where
  commentaire : String
  axes : String
  pointsForts : String
  note : String
  deriving Repr, DecidableEq

/-- Group extraction with `.strip()` and fallback, as in
`comm.group(1).strip() if comm else "Non généré"`. -/
def fieldOr (r : Option (List Char)) (fallback : String) : String :=
  match r with
  | some cap => String.mk (stripChars cap)
  | none => fallback

/-- Lines 110-120 of `app.py`: the four regex extractions applied to the
model reply, each with its own fallback. -/
def parseReponse (res : String) : GradingResult :=
  { commentaire := fieldOr (searchBody commLabel axesLabel res.data) "Non généré"
  , axes := fieldOr (searchBody axesLabel pfLabel res.data) "Non généré"
  , pointsForts := fieldOr (searchBody pfLabel noteLabel res.data) "Non généré"
  , note :=
      match searchNote res.data with
      | some d => String.mk d
      | none => "10" }

/-- Python's substring test `needle in hay`, position by position. -/
def containsL (needle : List Char) : List Char → Bool
  | [] => (matchLit needle []).isSome
  | s₀@(_ :: cs) => (matchLit needle s₀).isSome || containsL needle cs

/-- String-level wrapper for Python's `in`. -/
def pyIn (needle hay : String) : Bool := containsL needle.data hay.data

/-- Lines 72-77 of `app.py`: tone-to-instruction mapping. -/
def consigneStyle (style : String) : String :=
  if pyIn "Encourageante" style then "Sois très bienveillant et valorise les efforts."
  else if pyIn "Stricte" style then "Sois rigoureux et exigeant."
  else "Sois neutre et objectif."

/-- Lines 79-103 of `app.py`: the f-string prompt template. -/
def buildPrompt (texteRef texteEleve matiere niveau style : String) : String :=
  "\nTu es un expert pédagogique niveau " ++ niveau ++ ".\nMatière : " ++
  matiere ++ "\nStyle : " ++ consigneStyle style ++ "\n\nCORRIGÉ :\n" ++
  texteRef ++ "\n\nCOPIE ÉLÈVE :\n" ++ texteEleve ++
  "\n\nRépond STRICTEMENT sous ce format :\n\nCommentaire pédagogique :\n...\n\nAxes d" ++
  String.mk [apos] ++ "amélioration :\n...\n\nPoints forts :\n...\n\nNote indicative :\n.../20\n"

/-- Lines 70-123 of `app.py`: build the prompt, call the model, parse the
reply; any exception from the call is converted into the degraded
result `(f"Erreur IA : {e}", "", "", "00")`.  The external model is a
parameter returning `Except` (exception or reply text). -/
def analyserAvecGemini (modelCall : String → Except String String)
    (texteRef texteEleve matiere niveau style : String) : GradingResult :=
  match modelCall (buildPrompt texteRef texteEleve matiere niveau style) with
  | Except.ok res => parseReponse res
  | Except.error e =>
      { commentaire := "Erreur IA : " ++ e, axes := "", pointsForts := "", note := "00" }

/-- Lines 40-46 of `app.py`: `lire_docx`.  The library call `Document(file)`
is modelled by its outcome: the list of paragraph texts, or an exception.
Non-blank paragraphs are joined with newlines; any exception yields `""`. -/
def lireDocx (opened : Except String (List String)) : String :=
  match opened with
  | Except.ok paras =>
      String.intercalate "\n" (paras.filter (fun p => !(stripChars p.data).isEmpty))
  | Except.error _ => ""

/-- Lines 48-57 of `app.py`: `lire_pdf`.  `fitz.open` is modelled by its
outcome: the list of per-page `get_text()` strings, or an exception.  The
page texts are concatenated by the `for` loop starting from `""`. -/
def lirePdf (opened : Except String (List String)) : String :=
  match opened with
  | Except.ok pages => pages.foldl (fun acc t => acc ++ t) ""
  | Except.error _ => ""

/-- Lines 59-66 of `app.py`: `lire_image`.  The OCR call is modelled by its
outcome: the recognised text, or an exception. -/
def lireImage (ocr : Except String String) : String :=
  match ocr with
  | Except.ok t => t
  | Except.error _ => ""

/-- Dictionary `infos` built at lines 226-234 of `app.py` and consumed by
`creer_fiche_word`. -/
structure ReportInfo where
  enseignant : String
  eleve : String
  matiere : String
  niveau : String
  note : String
  commentaire : String
  axes : String
  deriving Repr, DecidableEq

/-- Lines 226-234 of `app.py`: assembling `infos` from the session fields
and the grading result (the `points_forts` field is not included). -/
def infosFromResult (enseignant eleve matiere niveau : String)
    (g : GradingResult) : ReportInfo :=
  { enseignant := enseignant, eleve := eleve, matiere := matiere, niveau := niveau
  , note := g.note, commentaire := g.commentaire, axes := g.axes }

/-- Lines 138-145 of `app.py`: the `data_rows` list of label/value pairs. -/
def dataRows (infos : ReportInfo) : List (String × String) :=
  [ ("Enseignant :", infos.enseignant)
  , ("Apprenant :", infos.eleve)
  , ("Matière / Niveau :", infos.matiere ++ " (" ++ infos.niveau ++ ")")
  , ("Note indicative :", infos.note)
  , ("Commentaire pédagogique :", infos.commentaire)
  , ("Axes d" ++ String.mk [apos] ++ "amélioration :", infos.axes) ]

/-- Table of `doc.add_table(rows, cols)`: a grid of empty cells. -/
def emptyTable (rows cols : Nat) : List (List String) :=
  List.replicate rows (List.replicate cols "")

/-- Assignment `table.cell(i, j).text = v`. -/
def setCell (t : List (List String)) (i j : Nat) (v : String) : List (List String) :=
  t.set i ((t.getD i []).set j v)

/-- Lines 147-149 of `app.py`: the fill loop over `enumerate(data_rows)`. -/
def fillRows : List (List String) → Nat → List (String × String) → List (List String)
  | t, _, [] => t
  | t, i, (label, value) :: rest =>
      fillRows (setCell (setCell t i 0 label) i 1 value) (i + 1) rest

/-- The filled 6×2 table of the report. -/
def ficheTable (infos : ReportInfo) : List (List String) :=
  fillRows (emptyTable 6 2) 0 (dataRows infos)

/-- Abstract block of the generated Word document. -/
inductive Block where
  | para (text : String) (centered : Bool)
  | heading (text : String) (level : Nat)
  | table (cells : List (List String))
  deriving Repr, DecidableEq

/-- Lines 127-164 of `app.py`: `creer_fiche_word`, the sequence of blocks
added to the document (the current date is a parameter). -/
def creerFicheWord (infos : ReportInfo) (today : String) : List Block :=
  [ Block.para "REPUBLIQUE DE COTE D'IVOIRE\nUnion - Discipline - Travail" true
  , Block.heading "RAPPORT DE CORRECTION PEDAGOGIQUE IA" 0
  , Block.table (ficheTable infos)
  , Block.para ("\nDocument généré le : " ++ today) false
  , Block.para "------------------------------------------------------------" false
  , Block.para ("Pour tout besoin en intelligence artificielle, contactez le Techno Djieh " ++
      "au +225 0757283553 ou au mail : bitahdhiehd@gmail.com") true ]

/-- Tables contained in a rendered document. -/
def tablesOf (blocks : List Block) : List (List (List String)) :=
  blocks.filterMap (fun b => match b with | Block.table cells => some cells | _ => none)

/-- Declared type of the student file upload. -/
inductive TypeDoc where
  | docx
  | pdf
  | image
  deriving Repr, DecidableEq

/-- Observable effects of one click of the "Lancer la correction IA"
button: how many extraction calls ran, how many model calls ran, how many
validation error messages were shown, and the offered report, if any. -/
structure RunTrace where
  extractionCalls : Nat
  modelCalls : Nat
  validationErrors : Nat
  fiche : Option (List Block)
  deriving Repr, DecidableEq

/-- Trace of the `else` branch at line 245-246 of `app.py`: one validation
message, no pipeline work. -/
def failTrace : RunTrace :=
  { extractionCalls := 0, modelCalls := 0, validationErrors := 1, fiche := none }

/-- Lines 196-246 of `app.py`: the button handler.  Files are abstract
handles of type `α`; the three extractors and the model call are
parameters standing for the library calls.  The guard is Python's
`if eleve and matiere and fichier_eleve` (truthiness of strings and of the
upload object). -/
def boutonHandler (α : Type) (lireDocxF lirePdfF lireImageF : α → String)
    (modelCall : String → Except String String)
    (enseignant eleve matiere niveau style : String) (typeDoc : TypeDoc)
    (fichierRef fichierEleve : Option α) (today : String) : RunTrace :=
  match fichierEleve with
  | some fe =>
      if !eleve.isEmpty && !matiere.isEmpty then
        let texteRef := match fichierRef with
          | some fr => lireDocxF fr
          | none => ""
        let texteEleve := match typeDoc with
          | TypeDoc.docx => lireDocxF fe
          | TypeDoc.pdf => lirePdfF fe
          | TypeDoc.image => lireImageF fe
        let g := analyserAvecGemini modelCall texteRef texteEleve matiere niveau style
        let infos := infosFromResult enseignant eleve matiere niveau g
        { extractionCalls := (match fichierRef with | some _ => 1 | none => 0) + 1
        , modelCalls := 1
        , validationErrors := 0
        , fiche := some (creerFicheWord infos today) }
      else failTrace
  | none => failTrace

/-- Well-formed model reply at character level: each of the four labels
appears in order, each followed by a colon, a newline and its section
body. -/
def mkReplyL (a b c t : List Char) : List Char :=
  commLabel ++ ':' :: lf :: (a ++ lf :: (axesLabel ++ ':' :: lf ::
    (b ++ lf :: (pfLabel ++ ':' :: lf :: (c ++ lf ::
      (noteLabel ++ ':' :: lf :: t))))))

/-- Well-formed model reply, string level. -/
def mkReply (a b c t : String) : String :=
  String.mk (mkReplyL a.data b.data c.data t.data)

/-- Needle starts at none of the positions strictly inside `x` when the
text continues with `rest` (the positions `re.search` scans before
reaching `rest`). -/
def noStart (needle : List Char) : List Char → List Char → Bool
  | [], _ => true
  | c :: x, rest => !(matchLit needle (c :: (x ++ rest))).isSome && noStart needle x rest

/-- First maximal digit run of a string, wherever it occurs. -/
def firstDigitRun : List Char → Option (List Char)
  | [] => none
  | c :: cs => if c.isDigit then some (c :: cs.takeWhile Char.isDigit) else firstDigitRun cs

/-- Leftmost occurrence of a literal label; on success return the text
after the label. -/
def searchLabelSuffix (L : List Char) : List Char → Option (List Char)
  | [] => none
  | s₀@(_ :: cs) =>
    match matchLit L s₀ with
    | some r => some r
    | none => searchLabelSuffix L cs

/-- Score reading of the claim, following the specification words: the
first run of digits found anywhere after the indicative-score label. -/
def specScoreAfterLabel (res : String) : Option String :=
  (searchLabelSuffix noteLabel res.data).bind
    (fun rest => (firstDigitRun rest).map String.mk)

theorem matchLit_self (L r : List Char) : matchLit L (L ++ r) = some r := by
  induction L with
  | nil => rfl
  | cons l ls ih => simp [matchLit, ih]

theorem searchBody_skip (L1 L2 : List Char) :
    ∀ (x rest : List Char), noStart L1 x rest = true →
      searchBody L1 L2 (x ++ rest) = searchBody L1 L2 rest := by
  intro x
  induction x with
  | nil => intro rest _; rfl
  | cons c x' ih =>
    intro rest h
    rw [noStart, Bool.and_eq_true, Bool.not_eq_true'] at h
    rw [List.cons_append, searchBody]
    cases m : matchLit L1 (c :: (x' ++ rest)) with
    | some r => rw [m] at h; simp at h
    | none =>
      have hbt : bodyTail L1 L2 (c :: (x' ++ rest)) = none := by
        rw [bodyTail, m]
      rw [hbt]
      exact ih rest h.2

theorem searchBody_head (L1 L2 : List Char) (rest : List Char) (cap : List Char)
    (hne : rest ≠ []) (h : bodyTail L1 L2 rest = some cap) :
    searchBody L1 L2 rest = some cap := by
  cases rest with
  | nil => exact absurd rfl hne
  | cons c cs => rw [searchBody, h]

theorem searchNote_skip :
    ∀ (x rest : List Char), noStart noteLabel x rest = true →
      searchNote (x ++ rest) = searchNote rest := by
  intro x
  induction x with
  | nil => intro rest _; rfl
  | cons c x' ih =>
    intro rest h
    rw [noStart, Bool.and_eq_true, Bool.not_eq_true'] at h
    rw [List.cons_append, searchNote]
    cases m : matchLit noteLabel (c :: (x' ++ rest)) with
    | some r => rw [m] at h; simp at h
    | none =>
      have hnt : noteTail (c :: (x' ++ rest)) = none := by
        rw [noteTail, m]
      rw [hnt]
      exact ih rest h.2

theorem searchNote_head (rest : List Char) (cap : List Char)
    (hne : rest ≠ []) (h : noteTail rest = some cap) :
    searchNote rest = some cap := by
  cases rest with
  | nil => exact absurd rfl hne
  | cons c cs => rw [searchNote, h]

theorem findTail_exact (L2 : List Char) :
    ∀ (r0 t : List Char), (∀ ch ∈ r0, ch ≠ lf) →
      (matchLit L2 (t.dropWhile isSpace)).isSome = true →
      findTail L2 (r0 ++ lf :: t) = some r0 := by
  intro r0
  induction r0 with
  | nil =>
    intro t _ hm
    rw [List.nil_append, findTail]
    simp [hm]
  | cons c r' ih =>
    intro t hno hm
    rw [List.cons_append, findTail]
    have hc : (c == lf) = false := by
      have := hno c (List.mem_cons_self c r')
      simp [this]
    rw [hc]
    simp only [Bool.false_and, if_false]
    rw [ih t (fun ch hch => hno ch (List.mem_cons_of_mem c hch)) hm]
    rfl

theorem greedyWs_exact (L2 : List Char) :
    ∀ (w : List Char) (rh : Char) (rr cap : List Char),
      (∀ ch ∈ w, isSpace ch = true) → isSpace rh = false →
      findTail L2 (rh :: rr) = some cap →
      greedyWsThen L2 (w ++ rh :: rr) = some cap := by
  intro w
  induction w with
  | nil =>
    intro rh rr cap _ hrh hf
    rw [List.nil_append, greedyWsThen, hrh]
    simp [hf]
  | cons c w' ih =>
    intro rh rr cap hw hrh hf
    rw [List.cons_append, greedyWsThen, hw c (List.mem_cons_self c w')]
    simp only [if_true]
    rw [ih rh rr cap (fun ch hch => hw ch (List.mem_cons_of_mem c hch)) hrh hf]

theorem dropWhile_head_false {p : Char → Bool} :
    ∀ {l : List Char} {rh : Char} {rr : List Char},
      l.dropWhile p = rh :: rr → p rh = false := by
  intro l
  induction l with
  | nil => intro rh rr h; simp [List.dropWhile] at h
  | cons c cs ih =>
    intro rh rr h
    rw [List.dropWhile_cons] at h
    by_cases hpc : p c
    · rw [if_pos hpc] at h
      exact ih h
    · rw [if_neg hpc] at h
      injection h with h1 h2
      subst h1
      simpa using hpc

theorem bodyTail_exact (L1 L2 : List Char) (body rest' : List Char)
    (hL2 : ∃ hd tl, L2 = hd :: tl ∧ isSpace hd = false)
    (hbody : ∀ ch ∈ body, ch ≠ lf)
    (hbody2 : body.dropWhile isSpace ≠ []) :
    bodyTail L1 L2 (L1 ++ ':' :: lf :: (body ++ lf :: (L2 ++ rest'))) =
      some (body.dropWhile isSpace) := by
  obtain ⟨hd2, tl2, hL2eq, hhd2⟩ := hL2
  rw [bodyTail, matchLit_self]
  dsimp only
  rw [List.dropWhile_cons_of_neg (by decide)]
  simp only [beq_self_eq_true, if_true]
  cases hdw : body.dropWhile isSpace with
  | nil => exact absurd hdw hbody2
  | cons rh rr =>
    have hrh : isSpace rh = false := dropWhile_head_false hdw
    have hsplit : lf :: (body ++ lf :: (L2 ++ rest')) =
        (lf :: body.takeWhile isSpace) ++ (rh :: (rr ++ lf :: (L2 ++ rest'))) := by
      rw [List.cons_append]
      congr 1
      conv_lhs => rw [← List.takeWhile_append_dropWhile isSpace body, hdw]
      rw [List.append_assoc, List.cons_append]
    rw [hsplit]
    rw [greedyWs_exact L2 (lf :: body.takeWhile isSpace) rh (rr ++ lf :: (L2 ++ rest'))
      (rh :: rr) ?hws hrh ?hft]
    case hws =>
      intro ch hch
      rcases List.mem_cons.mp hch with h | h
      · subst h; decide
      · exact List.mem_takeWhile_imp h
    case hft =>
      have := findTail_exact L2 (rh :: rr) (L2 ++ rest')
        (fun ch hch => hbody ch (List.dropWhile_subset isSpace (hdw ▸ hch)))
        (by rw [hL2eq, List.cons_append,
                List.dropWhile_cons_of_neg (by simp [hhd2]), ← List.cons_append, ← hL2eq,
                matchLit_self]
            rfl)
      rw [List.cons_append] at this
      exact this

theorem noteTail_exact (w y : List Char) (d : Char) (ds : List Char)
    (hw : ∀ ch ∈ w, isSpace ch = true)
    (hy : y.dropWhile isSpace = d :: ds) (hd : d.isDigit = true) :
    noteTail (noteLabel ++ (w ++ ':' :: y)) = some (d :: ds.takeWhile Char.isDigit) := by
  rw [noteTail, matchLit_self]
  dsimp only
  rw [List.dropWhile_append_of_pos hw]
  rw [List.dropWhile_cons_of_neg (by decide)]
  simp only [beq_self_eq_true, if_true]
  rw [hy]
  dsimp only
  rw [hd]
  simp

theorem searchBody_exact (L1 L2 : List Char) (x body rest' : List Char)
    (hL1 : L1 ≠ [])
    (hL2 : ∃ hd tl, L2 = hd :: tl ∧ isSpace hd = false)
    (hx : noStart L1 x (L1 ++ ':' :: lf :: (body ++ lf :: (L2 ++ rest'))) = true)
    (hbody : ∀ ch ∈ body, ch ≠ lf)
    (hbody2 : body.dropWhile isSpace ≠ []) :
    searchBody L1 L2 (x ++ (L1 ++ ':' :: lf :: (body ++ lf :: (L2 ++ rest')))) =
      some (body.dropWhile isSpace) := by
  rw [searchBody_skip L1 L2 x _ hx]
  exact searchBody_head L1 L2 _ _
    (List.append_ne_nil_of_left_ne_nil hL1 _)
    (bodyTail_exact L1 L2 body rest' hL2 hbody hbody2)

theorem searchNote_exact (x w y : List Char) (d : Char) (ds : List Char)
    (hx : noStart noteLabel x (noteLabel ++ (w ++ ':' :: y)) = true)
    (hw : ∀ ch ∈ w, isSpace ch = true)
    (hy : y.dropWhile isSpace = d :: ds) (hd : d.isDigit = true) :
    searchNote (x ++ (noteLabel ++ (w ++ ':' :: y))) =
      some (d :: ds.takeWhile Char.isDigit) := by
  rw [searchNote_skip x _ hx]
  exact searchNote_head _ _
    (List.append_ne_nil_of_left_ne_nil (by decide) _)
    (noteTail_exact w y d ds hw hy hd)

theorem dropWhile_space_idem (l : List Char) :
    (l.dropWhile isSpace).dropWhile isSpace = l.dropWhile isSpace := by
  cases hdw : l.dropWhile isSpace with
  | nil => rfl
  | cons rh rr =>
    rw [List.dropWhile_cons_of_neg (by simp [dropWhile_head_false hdw])]

theorem stripChars_dropWhile (l : List Char) :
    stripChars (l.dropWhile isSpace) = stripChars l := by
  rw [stripChars, stripChars, dropWhile_space_idem]

theorem label_cons_of (L : List Char) (hne : L ≠ [])
    (hhd : isSpace (L.headD ' ') = false) :
    ∃ hd tl, L = hd :: tl ∧ isSpace hd = false := by
  cases L with
  | nil => exact absurd rfl hne
  | cons hd tl => exact ⟨hd, tl, rfl, by simpa using hhd⟩

/-- C1: for every transport or model error raised during the grading call,
`analyser_avec_gemini` does not propagate an exception but returns a fully
populated result whose comment is `"Erreur IA : "` followed by the error
message, whose axes and strengths fields are empty and whose score
is `"00"`. -/
theorem claim_C1_model_error_degraded (modelCall : String → Except String String)
    (texteRef texteEleve matiere niveau style e : String)
    (h : modelCall (buildPrompt texteRef texteEleve matiere niveau style) =
      Except.error e) :
    analyserAvecGemini modelCall texteRef texteEleve matiere niveau style =
      { commentaire := "Erreur IA : " ++ e, axes := "", pointsForts := ""
      , note := "00" } := by
  unfold analyserAvecGemini
  rw [h]

theorem claim_C1_model_error_degraded_witness :
    analyserAvecGemini (fun _ => Except.error "timeout") "" "" "Maths" "Primaire"
      "Standard" =
      { commentaire := "Erreur IA : timeout", axes := "", pointsForts := ""
      , note := "00" } :=
  claim_C1_model_error_degraded (fun _ => Except.error "timeout") "" "" "Maths"
    "Primaire" "Standard" "timeout" rfl

/-- C5: for every run triggered with an empty student name, an empty
subject, or no submission file, no extraction call and no model call is
performed, exactly one validation message is shown, and no report is
built or offered. -/
theorem claim_C5_validation_gate (α : Type) (ld lp li : α → String)
    (mc : String → Except String String)
    (ens eleve matiere niv style : String) (td : TypeDoc)
    (fr fe : Option α) (today : String)
    (h : eleve = "" ∨ matiere = "" ∨ fe = none) :
    boutonHandler α ld lp li mc ens eleve matiere niv style td fr fe today =
      failTrace := by
  have hempty : ("" : String).isEmpty = true := rfl
  cases fe with
  | none => rfl
  | some f =>
    rcases h with h | h | h
    · subst h
      simp [boutonHandler, hempty]
    · subst h
      simp [boutonHandler, hempty]
    · exact absurd h (by simp)

theorem claim_C5_validation_gate_witness :
    boutonHandler Nat (fun _ => "") (fun _ => "") (fun _ => "")
      (fun _ => Except.error "hors ligne") "M. T" "" "Maths" "Primaire"
      "Standard" TypeDoc.docx none (some 1) "2026-10-12" = failTrace :=
  claim_C5_validation_gate Nat (fun _ => "") (fun _ => "") (fun _ => "")
    (fun _ => Except.error "hors ligne") "M. T" "" "Maths" "Primaire"
    "Standard" TypeDoc.docx none (some 1) "2026-10-12" (Or.inl rfl)

/-- C6: for every `ReportInfo`, even with empty field values, the rendered
report contains exactly one six-row two-column table whose rows are, in
order: teacher, student, subject/level joined as `Subject (Level)`,
indicative score, pedagogical comment, improvement axes, with the label
in column 0 and the value in column 1; empty values stay as empty cells. -/
theorem claim_C6_report_table (infos : ReportInfo) (today : String) :
    tablesOf (creerFicheWord infos today) =
      [ [ ["Enseignant :", infos.enseignant]
        , ["Apprenant :", infos.eleve]
        , ["Matière / Niveau :", infos.matiere ++ " (" ++ infos.niveau ++ ")"]
        , ["Note indicative :", infos.note]
        , ["Commentaire pédagogique :", infos.commentaire]
        , ["Axes d" ++ String.mk [apos] ++ "amélioration :", infos.axes] ] ] ∧
    (ficheTable infos).length = 6 :=
  ⟨rfl, rfl⟩

/-- C7: each of the three format extractors is total: on any internal
failure it returns the empty string, and a zero-page PDF yields the empty
string rather than an error. -/
theorem claim_C7_extractors_total :
    (∀ e : String, lireDocx (Except.error e) = "" ∧
      lirePdf (Except.error e) = "" ∧ lireImage (Except.error e) = "") ∧
    lirePdf (Except.ok []) = "" :=
  ⟨fun _ => ⟨rfl, rfl, rfl⟩, rfl⟩

/-- C8: the tone mapping is first-match-wins with `"Encourageante"`
checked before `"Stricte"`: any style containing `"Encourageante"` yields
the supportive instruction, a style containing `"Stricte"` but not
`"Encourageante"` yields the rigorous one, and any other style yields the
neutral one. -/
theorem claim_C8_tone_first_match (style : String) :
    (pyIn "Encourageante" style = true →
      consigneStyle style = "Sois très bienveillant et valorise les efforts.") ∧
    (pyIn "Encourageante" style = false → pyIn "Stricte" style = true →
      consigneStyle style = "Sois rigoureux et exigeant.") ∧
    (pyIn "Encourageante" style = false → pyIn "Stricte" style = false →
      consigneStyle style = "Sois neutre et objectif.") := by
  refine ⟨fun h => ?_, fun h1 h2 => ?_, fun h1 h2 => ?_⟩ <;>
    simp [consigneStyle, *]

theorem claim_C8_tone_first_match_witness :
    consigneStyle "Correction Encourageante mais Stricte" =
      "Sois très bienveillant et valorise les efforts." ∧
    consigneStyle "Très Stricte" = "Sois rigoureux et exigeant." ∧
    consigneStyle "Standard" = "Sois neutre et objectif." :=
  ⟨(claim_C8_tone_first_match "Correction Encourageante mais Stricte").1 (by decide),
   (claim_C8_tone_first_match "Très Stricte").2.1 (by decide) (by decide),
   (claim_C8_tone_first_match "Standard").2.2 (by decide) (by decide)⟩

/-- C9: for every grading result, the document rendered from the report
info built from it contains the literal score string and the literal
comment string in the corresponding table cells. -/
theorem claim_C9_content_preserved (ens el mat niv today : String)
    (g : GradingResult) :
    ((tablesOf (creerFicheWord (infosFromResult ens el mat niv g) today)).getD 0
        []).getD 3 [] = ["Note indicative :", g.note] ∧
    ((tablesOf (creerFicheWord (infosFromResult ens el mat niv g) today)).getD 0
        []).getD 4 [] = ["Commentaire pédagogique :", g.commentaire] :=
  ⟨rfl, rfl⟩

/-- C2: for every model reply in which the four section labels appear in
the fixed order — each followed by a colon, a newline and a section body
that contains no newline, is not pure whitespace, and does not hide an
earlier occurrence of a later label — the parser returns, for each of the
first three fields, exactly the text between that field's label and the
next label trimmed of surrounding whitespace, and the score is the digit
run following the score label. -/
theorem claim_C2_wellformed_parse (a b c t : String)
    (ha1 : ∀ ch ∈ a.data, ch ≠ lf) (ha2 : a.data.dropWhile isSpace ≠ [])
    (hb1 : ∀ ch ∈ b.data, ch ≠ lf) (hb2 : b.data.dropWhile isSpace ≠ [])
    (hc1 : ∀ ch ∈ c.data, ch ≠ lf) (hc2 : c.data.dropWhile isSpace ≠ [])
    (ht : ∃ d ds, t.data.dropWhile isSpace = d :: ds ∧ d.isDigit = true)
    (hnA : noStart axesLabel (commLabel ++ ':' :: lf :: (a.data ++ [lf]))
      (axesLabel ++ ':' :: lf :: (b.data ++ lf :: (pfLabel ++ ':' :: lf ::
        (c.data ++ lf :: (noteLabel ++ ':' :: lf :: t.data))))) = true)
    (hnP : noStart pfLabel
      (commLabel ++ ':' :: lf :: (a.data ++ lf :: (axesLabel ++ ':' :: lf ::
        (b.data ++ [lf]))))
      (pfLabel ++ ':' :: lf :: (c.data ++ lf :: (noteLabel ++ ':' :: lf ::
        t.data))) = true)
    (hnN : noStart noteLabel
      (commLabel ++ ':' :: lf :: (a.data ++ lf :: (axesLabel ++ ':' :: lf ::
        (b.data ++ lf :: (pfLabel ++ ':' :: lf :: (c.data ++ [lf]))))))
      (noteLabel ++ ':' :: lf :: t.data) = true) :
    parseReponse (mkReply a b c t) =
      { commentaire := String.mk (stripChars a.data)
      , axes := String.mk (stripChars b.data)
      , pointsForts := String.mk (stripChars c.data)
      , note := String.mk ((t.data.dropWhile isSpace).takeWhile Char.isDigit) } := by
  obtain ⟨d, ds, hyd, hdd⟩ := ht
  have hcomm : searchBody commLabel axesLabel (mkReplyL a.data b.data c.data t.data) =
      some (a.data.dropWhile isSpace) := by
    have h := searchBody_exact commLabel axesLabel [] a.data
      (':' :: lf :: (b.data ++ lf :: (pfLabel ++ ':' :: lf :: (c.data ++ lf ::
        (noteLabel ++ ':' :: lf :: t.data)))))
      (by decide) (label_cons_of axesLabel (by decide) (by decide)) rfl ha1 ha2
    exact h
  have haxes : searchBody axesLabel pfLabel (mkReplyL a.data b.data c.data t.data) =
      some (b.data.dropWhile isSpace) := by
    have hsh : mkReplyL a.data b.data c.data t.data =
        (commLabel ++ ':' :: lf :: (a.data ++ [lf])) ++
          (axesLabel ++ ':' :: lf :: (b.data ++ lf :: (pfLabel ++ ':' :: lf ::
            (c.data ++ lf :: (noteLabel ++ ':' :: lf :: t.data))))) := by
      simp [mkReplyL]
    rw [hsh]
    exact searchBody_exact axesLabel pfLabel _ b.data
      (':' :: lf :: (c.data ++ lf :: (noteLabel ++ ':' :: lf :: t.data)))
      (by decide) (label_cons_of pfLabel (by decide) (by decide)) hnA hb1 hb2
  have hpf : searchBody pfLabel noteLabel (mkReplyL a.data b.data c.data t.data) =
      some (c.data.dropWhile isSpace) := by
    have hsh : mkReplyL a.data b.data c.data t.data =
        (commLabel ++ ':' :: lf :: (a.data ++ lf :: (axesLabel ++ ':' :: lf ::
          (b.data ++ [lf])))) ++
          (pfLabel ++ ':' :: lf :: (c.data ++ lf :: (noteLabel ++ ':' :: lf ::
            t.data))) := by
      simp [mkReplyL]
    rw [hsh]
    exact searchBody_exact pfLabel noteLabel _ c.data
      (':' :: lf :: t.data)
      (by decide) (label_cons_of noteLabel (by decide) (by decide)) hnP hc1 hc2
  have hnote : searchNote (mkReplyL a.data b.data c.data t.data) =
      some (d :: ds.takeWhile Char.isDigit) := by
    have hsh : mkReplyL a.data b.data c.data t.data =
        (commLabel ++ ':' :: lf :: (a.data ++ lf :: (axesLabel ++ ':' :: lf ::
          (b.data ++ lf :: (pfLabel ++ ':' :: lf :: (c.data ++ [lf])))))) ++
          (noteLabel ++ ':' :: lf :: t.data) := by
      simp [mkReplyL]
    rw [hsh]
    exact searchNote_exact _ [] (lf :: t.data) d ds hnN (by simp)
      (by rw [List.dropWhile_cons_of_pos (by decide)]; exact hyd) hdd
  have hD : (mkReply a b c t).data = mkReplyL a.data b.data c.data t.data := rfl
  unfold parseReponse
  rw [hD, hcomm, haxes, hpf, hnote]
  unfold fieldOr
  dsimp only
  rw [stripChars_dropWhile, stripChars_dropWhile, stripChars_dropWhile,
      hyd, List.takeWhile_cons_of_pos hdd]

theorem claim_C2_wellformed_parse_witness :
    parseReponse (mkReply "Good work" "Work on grammar" "Clear structure" "15/20") =
      { commentaire := "Good work", axes := "Work on grammar"
      , pointsForts := "Clear structure", note := "15" } := by
  have h := claim_C2_wellformed_parse "Good work" "Work on grammar"
    "Clear structure" "15/20"
    (by decide) (by decide) (by decide) (by decide) (by decide) (by decide)
    ⟨'1', "5/20".data, by decide, by decide⟩
    (by decide) (by decide) (by decide)
  exact h.trans (by decide)

/-- C3: the four fields are extracted independently: a field whose pattern
fails to match receives its own fallback (and only then), and each field's
value is a function of its own pattern's search result alone, so the other
fields keep the values they would have in any reply where that pattern
matched; the parser itself is total. -/
theorem claim_C3_field_independence (r1 r2 : String) :
    ((searchBody commLabel axesLabel r1.data = none →
        (parseReponse r1).commentaire = "Non généré") ∧
     (searchBody axesLabel pfLabel r1.data = none →
        (parseReponse r1).axes = "Non généré") ∧
     (searchBody pfLabel noteLabel r1.data = none →
        (parseReponse r1).pointsForts = "Non généré") ∧
     (searchNote r1.data = none → (parseReponse r1).note = "10")) ∧
    ((searchBody commLabel axesLabel r1.data = searchBody commLabel axesLabel r2.data →
        (parseReponse r1).commentaire = (parseReponse r2).commentaire) ∧
     (searchBody axesLabel pfLabel r1.data = searchBody axesLabel pfLabel r2.data →
        (parseReponse r1).axes = (parseReponse r2).axes) ∧
     (searchBody pfLabel noteLabel r1.data = searchBody pfLabel noteLabel r2.data →
        (parseReponse r1).pointsForts = (parseReponse r2).pointsForts) ∧
     (searchNote r1.data = searchNote r2.data →
        (parseReponse r1).note = (parseReponse r2).note)) := by
  unfold parseReponse
  refine ⟨⟨fun h => ?_, fun h => ?_, fun h => ?_, fun h => ?_⟩,
          ⟨fun h => ?_, fun h => ?_, fun h => ?_, fun h => ?_⟩⟩ <;>
    simp [fieldOr, h]

/-- Reply lacking the pedagogical-comment label but keeping the other
three sections. -/
def replySansCommentaire : String :=
  String.mk (axesLabel ++ ':' :: lf :: ("B1".data ++ lf :: (pfLabel ++ ':' :: lf ::
    ("C1".data ++ lf :: (noteLabel ++ ':' :: lf :: "12/20".data)))))

/-- Complete reply sharing the same axes, strengths and score sections. -/
def replyComplet : String := mkReply "A1" "B1" "C1" "12/20"

theorem claim_C3_field_independence_witness :
    (parseReponse replySansCommentaire).commentaire = "Non généré" ∧
    (parseReponse replySansCommentaire).axes = (parseReponse replyComplet).axes ∧
    (parseReponse replySansCommentaire).pointsForts =
      (parseReponse replyComplet).pointsForts ∧
    (parseReponse replySansCommentaire).note = (parseReponse replyComplet).note := by
  have h := claim_C3_field_independence replySansCommentaire replyComplet
  exact ⟨h.1.1 (by decide), h.2.2.1 (by decide), h.2.2.2.1 (by decide),
    h.2.2.2.2 (by decide)⟩

/-- Reply whose score label is followed by a colon but where text comes
before the digits, so the claimed reading and the code differ. -/
def cexScoreReply : String :=
  String.mk (noteLabel ++ ' ' :: ':' :: lf :: "excellent devoir 15/20".data)

/-- C4 counterexample: this reply contains the indicative-score label
followed later by digits, the first digit run after the label is `15`,
yet the code falls back to `10` because no digit follows the colon
directly (after whitespace only). -/
theorem claim_C4_counterexample :
    pyIn (String.mk noteLabel) cexScoreReply = true ∧
    specScoreAfterLabel cexScoreReply = some "15" ∧
    (parseReponse cexScoreReply).note = "10" ∧
    (parseReponse cexScoreReply).note ≠ "15" := by decide

/-- C4 amended: the parsed score is the first run of digits after the
label only when the label is followed by optional whitespace, a colon and
optional whitespace, and a digit appears immediately there; the score is
then the maximal digit run from that digit. -/
theorem claim_C4_amended_score (x w y : List Char)
    (hx : noStart noteLabel x (noteLabel ++ (w ++ ':' :: y)) = true)
    (hw : ∀ ch ∈ w, isSpace ch = true)
    (hy : ∃ d ds, y.dropWhile isSpace = d :: ds ∧ d.isDigit = true) :
    (parseReponse (String.mk (x ++ (noteLabel ++ (w ++ ':' :: y))))).note =
      String.mk ((y.dropWhile isSpace).takeWhile Char.isDigit) := by
  obtain ⟨d, ds, hyd, hdd⟩ := hy
  unfold parseReponse
  dsimp only
  rw [searchNote_exact x w y d ds hx hw hyd hdd]
  rw [hyd, List.takeWhile_cons_of_pos hdd]

theorem claim_C4_amended_score_witness :
    (parseReponse (String.mk ("Bilan global.".data ++ (noteLabel ++
      ([' '] ++ ':' :: " 14/20".data))))).note = "14" := by
  have h := claim_C4_amended_score "Bilan global.".data [' '] " 14/20".data
    (by decide) (by decide) ⟨'1', "4/20".data, by decide, by decide⟩
  exact h.trans (by decide)

theorem noteTail_digits : ∀ {s d : List Char}, noteTail s = some d →
    d.all Char.isDigit = true := by
  intro s d h
  unfold noteTail at h
  split at h
  · split at h
    · split at h
      · split at h
        · split at h
          · rename_i hdig
            injection h with h
            subst h
            simp only [List.all_cons, Bool.and_eq_true, List.all_eq_true]
            exact ⟨hdig, fun x hx => List.mem_takeWhile_imp hx⟩
          · simp at h
        · simp at h
      · simp at h
    · simp at h
  · simp at h

theorem searchNote_digits : ∀ (s dcap : List Char), searchNote s = some dcap →
    dcap.all Char.isDigit = true := by
  intro s
  induction s with
  | nil => intro dcap h; simp [searchNote] at h
  | cons c cs ih =>
    intro dcap h
    rw [searchNote] at h
    cases hnt : noteTail (c :: cs) with
    | some d0 =>
      rw [hnt] at h
      dsimp only at h
      injection h with h
      subst h
      exact noteTail_digits hnt
    | none =>
      rw [hnt] at h
      exact ih dcap h

/-- C10: the parsed score always consists solely of decimal digits (so it
never contains a decimal point or the `/20` suffix), and a reply whose
score section reads `15.5/20` parses to the integer part `15` only. -/
theorem claim_C10_score_integer_part :
    (∀ res : String, (parseReponse res).note.data.all Char.isDigit = true) ∧
    parseReponse (mkReply "Bon travail" "Revoir la syntaxe" "Bonne structure"
        "15.5/20") =
      { commentaire := "Bon travail", axes := "Revoir la syntaxe"
      , pointsForts := "Bonne structure", note := "15" } := by
  constructor
  · intro res
    unfold parseReponse
    dsimp only
    cases h : searchNote res.data with
    | some d =>
      dsimp only
      exact searchNote_digits res.data d h
    | none =>
      decide
  · decide
